import Mathlib

/-!
Verification development for the incremental synchronization engine and
batch normalization pipeline (che168 ingestion service).

The Python sources are shallowly embedded: JSON payloads become an
inductive `Json` type, Python dicts become association lists with
last-write-wins update, database tables become Lean lists of records,
and the stateful loops of `DailyUpdater.update` and
`DataNormalizer.normalize` become fuel-indexed recursive functions over
explicit state.  Timestamps are abstracted as integers (no claim depends
on calendar arithmetic).  `translate_field` lives in
`app/utils/translator.py`, which is not part of the sources; it is
modelled from the spec as a structure-preserving map of an abstract
`String → String` lookup over the string leaves of a JSON tree.
-/

namespace CarSync

/-- JSON values as stored in the `data` JSONB columns.  Objects keep the
insertion order of their fields, like Python dicts. -/
inductive Json where
  | null : Json
  | b (v : Bool) : Json
  | i (v : Int) : Json
  | s (v : String) : Json
  | arr (items : List Json) : Json
  | obj (fields : List (String × Json)) : Json

/-- Python truthiness of a JSON value (`if value:`). -/
def jsonTruthy : Json → Bool
  | .null => false
  | .b v => v
  | .i v => v != 0
  | .s v => v != ""
  | .arr items => !items.isEmpty
  | .obj fields => !fields.isEmpty

/-- Key lookup in a Python dict modelled as an association list
(first matching key wins; well-formed dicts have unique keys). -/
def dictGet {α : Type} (l : List (String × α)) (k : String) : Option α :=
  (l.find? (fun p => p.1 == k)).map (fun p => p.2)

/-- Python dict assignment `d[k] = v`: replaces the value at an existing
key in place, otherwise appends the binding at the end. -/
def assocSet {α : Type} : List (String × α) → String → α → List (String × α)
  | [], k, v => [(k, v)]
  | (k', v') :: rest, k, v =>
      if k' = k then (k, v) :: rest else (k', v') :: assocSet rest k v

/-- Python `key.startswith('new_')`: the first four characters are the
delta marker. -/
def hasNewMarker (s : String) : Bool :=
  decide (s.data.take 4 = "new_".data)

/-- Python `key[4:]`: remove the four-character delta marker. -/
def stripNewMarker (s : String) : String :=
  ⟨s.data.drop 4⟩

/-- The destination key a single field of the incoming payload is
written to by `merge_json`. -/
def writeKey (s : String) : String :=
  if hasNewMarker s then stripNewMarker s else s

/-- Embedding of `merge_json` (src/app/utils/json_merger.py, lines 6-34):
start from a copy of the existing data and fold the incoming fields over
it, folding `new_`-prefixed keys onto the unprefixed key. -/
def merge_json (existing_data new_data : List (String × Json)) :
    List (String × Json) :=
  new_data.foldl
    (fun merged kv =>
      if hasNewMarker kv.1 then assocSet merged (stripNewMarker kv.1) kv.2
      else assocSet merged kv.1 kv.2)
    existing_data

/-- Value of a non-empty ASCII digit string. -/
def digitsToNat (s : String) : Nat :=
  s.data.foldl (fun acc c => acc * 10 + (c.toNat - 48)) 0

/-- Model of Python `int(string)`: strip surrounding whitespace, allow an
optional sign, then require a non-empty run of digits. -/
def pyIntOfString (s : String) : Option Int :=
  let t := ((s.data.dropWhile Char.isWhitespace).reverse.dropWhile
    Char.isWhitespace).reverse
  let (sign, digits) :=
    match t with
    | '-' :: rest => ((-1 : Int), rest)
    | '+' :: rest => ((1 : Int), rest)
    | _ => ((1 : Int), t)
  if digits.isEmpty then none
  else if digits.all Char.isDigit then
    some (sign * (digitsToNat (String.mk digits) : Int))
  else none

/-- One row of the `raw_data` table (src/app/database/models.py, RawData).
Timestamps are abstracted as integers; the list holding the table is kept
in primary-key order, so list order models `ORDER BY raw_data.id`. -/
structure RawRecord where
  inner_id : String
  change_type : String
  created_at : Int
  data : List (String × Json)
  first_loaded_at : Int
  last_updated_at : Int
  source : String
  active_status : Int
  is_processed : Bool

/-- One change record of a `/changes` page as consumed by
`DailyUpdater._save_changes`.  `created_at` is the already parsed
creation timestamp (`none` models both an absent field and a string the
parser rejects, which the code replaces with the current time). -/
structure ChangeRecord where
  inner_id : Option String
  change_type : Option String
  created_at : Option Int
  data : Option (List (String × Json))

/-- Counters returned by `DailyUpdater._save_changes`. -/
structure SaveStats where
  loaded : Nat
  updated : Nat
  removed : Nat
  errors : Nat
  duplicates : Nat
deriving DecidableEq

def SaveStats.zero : SaveStats := ⟨0, 0, 0, 0, 0⟩

/-- Fetch the unique `raw_data` row with the given `inner_id`
(`scalar_one_or_none`; the column carries a unique constraint). -/
def findRaw (db : List RawRecord) (id : String) : Option RawRecord :=
  db.find? (fun r => r.inner_id == id)

/-- In-place mutation of the row with the given `inner_id`. -/
def updateRaw (db : List RawRecord) (id : String)
    (f : RawRecord → RawRecord) : List RawRecord :=
  db.map (fun r => if r.inner_id == id then f r else r)

/-- One iteration of the per-record loop of `DailyUpdater._save_changes`
(src/app/loaders/daily_updater.py, lines 217-328). -/
def saveChangeStep (now : Int) (source : String)
    (acc : SaveStats × List RawRecord) (record : ChangeRecord) :
    SaveStats × List RawRecord :=
  let (stats, db) := acc
  match record.inner_id with
  | none => ({ stats with errors := stats.errors + 1 }, db)
  | some inner_id =>
    if inner_id = "" then ({ stats with errors := stats.errors + 1 }, db)
    else
      let change_type := record.change_type.getD "added"
      let created_at := record.created_at.getD now
      let existing_record := findRaw db inner_id
      if change_type = "added" then
        match existing_record with
        | some _ => ({ stats with duplicates := stats.duplicates + 1 }, db)
        | none =>
            ({ stats with loaded := stats.loaded + 1 },
             db ++ [⟨inner_id, change_type, created_at,
                     (record.data.getD []), now, now, source, 0, false⟩])
      else if change_type = "changed" then
        match existing_record with
        | some existing =>
            let merged := merge_json existing.data (record.data.getD [])
            ({ stats with updated := stats.updated + 1 },
             updateRaw db inner_id (fun r =>
               { r with change_type := change_type, created_at := created_at,
                        data := merged, last_updated_at := now,
                        is_processed := false }))
        | none =>
            ({ stats with loaded := stats.loaded + 1 },
             db ++ [⟨inner_id, change_type, created_at,
                     (record.data.getD []), now, now, source, 0, false⟩])
      else if change_type = "removed" then
        match existing_record with
        | some _ =>
            ({ stats with removed := stats.removed + 1 },
             updateRaw db inner_id (fun r =>
               { r with change_type := change_type, active_status := 1,
                        last_updated_at := now, is_processed := false }))
        | none =>
            ({ stats with loaded := stats.loaded + 1 },
             db ++ [⟨inner_id, change_type, created_at, [], now, now,
                     source, 1, false⟩])
      else
        (stats, db)

/-- Embedding of `DailyUpdater._save_changes`: apply one page of change
records in one session and commit once; a failing commit rolls the page
back and re-raises. -/
def save_changes (now : Int) (source : String) (commitOk : Bool)
    (db : List RawRecord) (records : List ChangeRecord) :
    Except Unit (SaveStats × List RawRecord) :=
  let (stats, db') := records.foldl (saveChangeStep now source) (.zero, db)
  if commitOk then .ok (stats, db') else .error ()

/-- One page of the `/changes` feed: the record list plus the
`cur_change_id` / `next_change_id` metadata. -/
structure Page where
  result : List ChangeRecord
  cur_change_id : Option Int
  next_change_id : Option Int

/-- Run counters of `DailyUpdater.update`. -/
structure UpdateStats where
  dates_processed : Nat
  total_loaded : Nat
  total_updated : Nat
  total_removed : Nat
  total_errors : Nat
  total_duplicates : Nat
deriving DecidableEq

def UpdateStats.zero : UpdateStats := ⟨0, 0, 0, 0, 0, 0⟩

/-- The singleton `sync_state` row: `(last_successful_date, last_change_id)`,
with dates abstracted as integers; `none` when the table is empty. -/
def SyncStateRow := Option (Int × Option Int)

/-- Embedding of `DailyUpdater._update_sync_state` (lines 340-370):
upsert the singleton row to the processed date and last change id. -/
def update_sync_state (_sync : SyncStateRow) (process_date : Int)
    (last_change_id : Option Int) : SyncStateRow :=
  some (process_date, last_change_id)

/-- Python truthiness of the optional integer `cur_change_id`
(`if cur_change_id:`): present and non-zero. -/
def optIntTruthy : Option Int → Bool
  | some v => v != 0
  | none => false

/-- The pagination loop of `DailyUpdater.update` (lines 115-175).  The
`pages` function gives the outcome of the fetch of each page number
(starting at 1) and `pageCommitOk` whether that page's commit succeeds;
a fetch error or a `_save_changes` raise records one error and breaks.
Returns `none` when the fuel runs out before the walk ends, otherwise
the accumulated stats, the raw store, and `last_change_id`. -/
def updateLoop (now : Int) (source : String)
    (pages : Nat → Except Unit Page) (pageCommitOk : Nat → Bool) :
    Nat → Nat → Int → Option Int → UpdateStats → List RawRecord →
    Option (UpdateStats × List RawRecord × Option Int)
  | 0, _, _, _, _, _ => none
  | fuel + 1, page_number, current_change_id, last_change_id, stats, db =>
    match pages page_number with
    | .error _ =>
        some ({ stats with total_errors := stats.total_errors + 1 }, db,
              last_change_id)
    | .ok page =>
      let applied :=
        if page.result.isEmpty then .ok (SaveStats.zero, db)
        else save_changes now source (pageCommitOk page_number) db page.result
      match applied with
      | .error _ =>
          some ({ stats with total_errors := stats.total_errors + 1 }, db,
                last_change_id)
      | .ok (page_stats, db') =>
        let stats' :=
          { stats with
            total_loaded := stats.total_loaded + page_stats.loaded,
            total_updated := stats.total_updated + page_stats.updated,
            total_removed := stats.total_removed + page_stats.removed,
            total_errors := stats.total_errors + page_stats.errors,
            total_duplicates := stats.total_duplicates + page_stats.duplicates }
        let last' :=
          if optIntTruthy page.cur_change_id then page.cur_change_id
          else some current_change_id
        match page.next_change_id with
        | none => some (stats', db', last')
        | some next =>
            updateLoop now source pages pageCommitOk fuel (page_number + 1)
              next last' stats' db'

/-- Embedding of `DailyUpdater.update` (lines 33-201).  `change_id_resp`
is the outcome of `get_change_id` for the processed date; `pages` the
outcomes of the successive `/changes` fetches.  Returns `none` only when
the fuel is too small for the walk, otherwise the final stats, the
`sync_state` row, and the raw store. -/
def update (now : Int) (source : String) (sync0 : SyncStateRow)
    (db0 : List RawRecord) (process_date : Int)
    (change_id_resp : Except Unit (Option Int))
    (pages : Nat → Except Unit Page) (pageCommitOk : Nat → Bool)
    (fuel : Nat) :
    Option (UpdateStats × SyncStateRow × List RawRecord) :=
  match sync0 with
  | some (last_date, last_id) =>
      if last_date ≥ process_date then
        some (UpdateStats.zero, some (last_date, last_id), db0)
      else
        updateAfterSyncCheck now source sync0 db0 process_date
          change_id_resp pages pageCommitOk fuel
  | none =>
      updateAfterSyncCheck now source sync0 db0 process_date
        change_id_resp pages pageCommitOk fuel
where
  updateAfterSyncCheck (now : Int) (source : String) (sync0 : SyncStateRow)
      (db0 : List RawRecord) (process_date : Int)
      (change_id_resp : Except Unit (Option Int))
      (pages : Nat → Except Unit Page) (pageCommitOk : Nat → Bool)
      (fuel : Nat) :
      Option (UpdateStats × SyncStateRow × List RawRecord) :=
    match change_id_resp with
    | .error _ =>
        some ({ UpdateStats.zero with total_errors := 1 }, sync0, db0)
    | .ok cid =>
      if !optIntTruthy cid then some (UpdateStats.zero, sync0, db0)
      else
        let initial_change_id := cid.getD 0
        match updateLoop now source pages pageCommitOk fuel 1
            initial_change_id none UpdateStats.zero db0 with
        | none => none
        | some (stats, db', last_change_id) =>
          if stats.total_errors = 0 then
            some ({ stats with dates_processed := 1 },
                  update_sync_state sync0 process_date last_change_id, db')
          else
            some (stats, sync0, db')

/-- The validation-relevant slice of the dictionary built by
`DataNormalizer._normalize_record` plus the `inner_id` attached in
`_process_batch`; `_validate_normalized_data` reads no other key.  The
other extracted columns do not influence control flow and are carried
opaquely by the processed row. -/
structure NormalizedData where
  inner_id : Option String
  year : Option Int
  price : Option Int
  km_age : Option Int
  power : Option Int
  displacement : Option ℚ
deriving DecidableEq

/-- Numeric-field extraction of `_normalize_record` (the year / price /
km_age / power pattern): a falsy value yields `None`; a string is
filtered to its digits and converted, an empty filtrate yielding `None`;
`int()` of a non-numeric value raises and the handler yields `None`. -/
def extractIntField (v : Option Json) : Option Int :=
  match v with
  | none => none
  | some j =>
    if !jsonTruthy j then none
    else
      match j with
      | .s str =>
          let ds := String.mk (str.data.filter Char.isDigit)
          if ds = "" then none else some (digitsToNat ds : Int)
      | .i n => some n
      | .b _ => some 1
      | _ => none

/-- Model of Python `float(string)` on a string of digits and dots:
at most one dot and at least one digit. -/
def pyFloatOfDigits (s : String) : Option ℚ :=
  if (s.data.filter (fun c => c = '.')).length > 1 then none
  else
    let intPart := s.data.takeWhile (fun c => c ≠ '.')
    let fracPart := (s.data.dropWhile (fun c => c ≠ '.')).drop 1
    if intPart.isEmpty ∧ fracPart.isEmpty then none
    else
      some ((digitsToNat (String.mk intPart) : ℚ) +
            (digitsToNat (String.mk fracPart) : ℚ) /
              ((10 : ℚ) ^ fracPart.length))

/-- The `displacement` extraction: strings keep digit and dot characters
before `float()` conversion; conversion failure yields `None`. -/
def extractFloatField (v : Option Json) : Option ℚ :=
  match v with
  | none => none
  | some j =>
    if !jsonTruthy j then none
    else
      match j with
      | .s str =>
          let ds := String.mk (str.data.filter
            (fun c => c.isDigit || c = '.'))
          if ds = "" then none else pyFloatOfDigits ds
      | .i n => some (n : ℚ)
      | .b _ => some 1
      | _ => none

/-- The validation-relevant part of `DataNormalizer._normalize_record`
(lines 336-462 for the numeric fields); `inner_id` is attached by the
caller. -/
def normalizeRecordNum (raw_data : List (String × Json)) : NormalizedData :=
  { inner_id := none
    year := extractIntField (dictGet raw_data "year")
    price := extractIntField (dictGet raw_data "price")
    km_age := extractIntField (dictGet raw_data "km_age")
    power := extractIntField (dictGet raw_data "power")
    displacement := extractFloatField (dictGet raw_data "displacement") }

/-- Python truthiness of `normalized.get('inner_id')` for a string
field: present and non-empty. -/
def optStrTruthy : Option String → Bool
  | some v => v != ""
  | none => false

/-- Truthiness-gated range check: `if normalized.get(k):` skips the
check entirely when the value is absent or zero. -/
def intFieldOk (lo hi : Int) : Option Int → Bool
  | none => true
  | some v => if v = 0 then true else decide (lo ≤ v ∧ v ≤ hi)

/-- Embedding of `DataNormalizer._validate_normalized_data`
(src/app/normalizers/data_normalizer.py, lines 260-306), with
`current_year` (`datetime.now().year`) a parameter. -/
def validate_normalized_data (current_year : Int) (n : NormalizedData) :
    Bool :=
  optStrTruthy n.inner_id &&
  intFieldOk 1900 (current_year + 1) n.year &&
  intFieldOk 0 100000000 n.price &&
  intFieldOk 0 10000000 n.km_age &&
  intFieldOk 0 10000 n.power &&
  (match n.displacement with
   | none => true
   | some d => if d = 0 then true else decide (0 ≤ d ∧ d ≤ 20))

/-- One row of the `processed_data` table, restricted to the columns the
claims inspect; the extracted scalar slice is carried as `fields`. -/
structure ProcessedRecord where
  inner_id : String
  active_status : Int
  fields : NormalizedData
deriving DecidableEq

/-- Counters of one `DataNormalizer._process_batch` call. -/
structure BatchStats where
  processed : Nat
  created : Nat
  updated : Nat
  errors : Nat
deriving DecidableEq

def BatchStats.zero : BatchStats := ⟨0, 0, 0, 0⟩

/-- The batch selection of `_process_batch` (lines 165-171): unprocessed
rows in primary-key order, `LIMIT batch_size OFFSET offset`. -/
def selectBatch (db : List RawRecord) (offset batch_size : Nat) :
    List RawRecord :=
  ((db.filter (fun r => !r.is_processed)).drop offset).take batch_size

/-- The per-record validation outcome inside `_process_batch`: the
extracted fields with `inner_id` attached, run through validation. -/
def recordValid (current_year : Int) (r : RawRecord) : Bool :=
  validate_normalized_data current_year
    { normalizeRecordNum r.data with inner_id := some r.inner_id }

/-- One iteration of the per-record loop of `_process_batch`
(lines 179-235): skip on validation failure, otherwise upsert the
processed row and stage `is_processed = True` on the raw row. -/
def processOne (current_year : Int)
    (acc : BatchStats × List RawRecord × List ProcessedRecord)
    (r : RawRecord) : BatchStats × List RawRecord × List ProcessedRecord :=
  let (stats, db, proc) := acc
  if !recordValid current_year r then
    ({ stats with errors := stats.errors + 1 }, db, proc)
  else
    let fields := { normalizeRecordNum r.data with inner_id := none }
    let upserted :=
      if (proc.find? (fun p => p.inner_id == r.inner_id)).isSome then
        (proc.map (fun p =>
          if p.inner_id == r.inner_id then
            { p with fields := fields, active_status := r.active_status }
          else p), false)
      else (proc ++ [⟨r.inner_id, r.active_status, fields⟩], true)
    let stats' :=
      if upserted.2 then { stats with created := stats.created + 1 }
      else { stats with updated := stats.updated + 1 }
    ({ stats' with processed := stats'.processed + 1 },
     updateRaw db r.inner_id (fun rr => { rr with is_processed := true }),
     upserted.1)

/-- Embedding of `DataNormalizer._process_batch` (lines 144-258): select
the batch, process each record with per-record isolation, then commit;
a failing commit rolls the whole batch back, counts every batch record
as an error and zeroes the other counters. -/
def process_batch (current_year : Int) (batch_size offset : Nat)
    (commitOk : Bool) (db : List RawRecord)
    (proc : List ProcessedRecord) :
    BatchStats × List RawRecord × List ProcessedRecord :=
  let records := selectBatch db offset batch_size
  if records.isEmpty then (.zero, db, proc)
  else
    let (stats, db', proc') :=
      records.foldl (processOne current_year) (.zero, db, proc)
    if commitOk then (stats, db', proc')
    else
      ({ processed := 0, created := 0, updated := 0,
         errors := stats.errors + records.length }, db, proc)

/-- Run totals of `DataNormalizer.normalize`. -/
structure TotalStats where
  total_processed : Nat
  total_created : Nat
  total_updated : Nat
  total_errors : Nat
  total_batches : Nat
deriving DecidableEq

def TotalStats.zero : TotalStats := ⟨0, 0, 0, 0, 0⟩

/-- The batch loop of `DataNormalizer.normalize` (lines 79-121): stop at
the record ceiling, shrink the final batch to the remaining ceiling,
stop when a batch processes nothing, and advance the offset by the
configured batch size. -/
def normalizeLoop (current_year : Int) (batch_size : Nat)
    (limit : Option Nat) (commitOk : Nat → Bool) :
    Nat → Nat → Nat → TotalStats → List RawRecord → List ProcessedRecord →
    TotalStats × List RawRecord × List ProcessedRecord
  | 0, _, _, stats, db, proc => (stats, db, proc)
  | fuel + 1, batch_number, offset, stats, db, proc =>
    if (limit.getD 0) ≠ 0 ∧ limit.getD 0 ≤ stats.total_processed then
      (stats, db, proc)
    else
      let remaining :=
        match limit with
        | some l => l - stats.total_processed
        | none => 0
      let bs :=
        if remaining ≠ 0 ∧ remaining < batch_size then remaining
        else batch_size
      let (batch_stats, db', proc') :=
        process_batch current_year bs offset (commitOk batch_number) db proc
      if batch_stats.processed = 0 then (stats, db', proc')
      else
        normalizeLoop current_year batch_size limit commitOk fuel
          (batch_number + 1) (offset + batch_size)
          { total_processed := stats.total_processed + batch_stats.processed,
            total_created := stats.total_created + batch_stats.created,
            total_updated := stats.total_updated + batch_stats.updated,
            total_errors := stats.total_errors + batch_stats.errors,
            total_batches := stats.total_batches + 1 }
          db' proc'

/-- Embedding of `DataNormalizer.normalize` (lines 31-142): count the
unprocessed rows, return immediately when none exist, otherwise run the
batch loop from offset 0.  The fuel bound `count + 1` covers every
possible run, since each continued iteration processes at least one
record and at most `count` records exist. -/
def normalize (current_year : Int) (batch_size : Nat) (limit : Option Nat)
    (commitOk : Nat → Bool) (db : List RawRecord)
    (proc : List ProcessedRecord) :
    TotalStats × List RawRecord × List ProcessedRecord :=
  let total_count := (db.filter (fun r => !r.is_processed)).length
  if total_count = 0 then (.zero, db, proc)
  else
    normalizeLoop current_year batch_size limit commitOk (total_count + 1)
      1 0 .zero db proc

/-- The attempt loop shared by `retry_sync` and `retry_async`
(src/app/utils/retry.py, lines 94-139 and 176-221; the two bodies are
identical up to `await`).  `outcomes i` is the result of the i-th call
of the wrapped operation (attempts are numbered from 1), `elapsed i` the
elapsed time observed after its failure, and `obs i` the outcome of the
`on_retry` observer, whose failure is caught and ignored.  The result
pairs the returned value (or the re-raised failure; `.error none` is the
unreachable `RuntimeError` fallback after the loop) with the number of
attempts made.  `remaining` counts the loop iterations left, so
`retryRun` starts it at `max_attempts`. -/
def retryGo {E A : Type} (max_attempts : Nat) (timeout : ℚ)
    (outcomes : Nat → Except E A) (elapsed : Nat → ℚ)
    (obs : Nat → Except Unit Unit) :
    Nat → Nat → Except (Option E) A × Nat
  | _, 0 => (.error none, 0)
  | attempt, remaining + 1 =>
    match outcomes attempt with
    | .ok v => (.ok v, attempt)
    | .error e =>
      if timeout ≤ elapsed attempt then (.error (some e), attempt)
      else if max_attempts ≤ attempt then (.error (some e), attempt)
      else
        match obs attempt with
        | .ok _ => retryGo max_attempts timeout outcomes elapsed obs
            (attempt + 1) remaining
        | .error _ => retryGo max_attempts timeout outcomes elapsed obs
            (attempt + 1) remaining

/-- The retry wrapper: run the attempt loop from attempt 1. -/
def retryRun {E A : Type} (max_attempts : Nat) (timeout : ℚ)
    (outcomes : Nat → Except E A) (elapsed : Nat → ℚ)
    (obs : Nat → Except Unit Unit) : Except (Option E) A × Nat :=
  retryGo max_attempts timeout outcomes elapsed obs 1 max_attempts

/-- Embedding of `BaseLoader.finish_operation`
(src/app/loaders/base_loader.py, lines 32-67): the status and detail
text written to the `operations_log` entry, given the caller-supplied
status and the number of errors recorded via `record_error`. -/
def finish_operation (status : String) (errors_count : Nat) :
    String × Option String :=
  let final_status :=
    if 0 < errors_count ∧ status = "OK" then "ERROR" else status
  let details :=
    if 0 < errors_count then
      some ("Completed with " ++ toString errors_count ++ " errors")
    else none
  (final_status, details)

mutual

/-- Modelled from the spec: `translate_field` lives in
`app/utils/translator.py`, which is absent from the sources.  The spec
describes it as a static bilingual lookup used as a pure
`text -> text` function (unknown input returned unchanged); applied to
a JSON tree it translates the string leaves and preserves the
structure and the keys.  The lookup itself is the parameter `tr`. -/
def translate_field (tr : String → String) : Json → Json
  | .s v => .s (tr v)
  | .arr items => .arr (translateList tr items)
  | .obj fields => .obj (translateFields tr fields)
  | j => j

def translateList (tr : String → String) : List Json → List Json
  | [] => []
  | j :: rest => translate_field tr j :: translateList tr rest

def translateFields (tr : String → String) :
    List (String × Json) → List (String × Json)
  | [] => []
  | (k, j) :: rest => (k, translate_field tr j) :: translateFields tr rest

end

/-- The whitelist `CONFIG_PARAM_IDS` of `_normalize_record` (line 326). -/
def CONFIG_PARAM_IDS : List Int :=
  [93, 91, 90, 88, 116, 101, 108, 92, 115, 97, 95, 38, 58, 3, 13, 6, 11,
   14, 17, 20, 24, 23, 41, 40, 42, 46, 43, 44, 47, 48, 49, 50, 53]

/-- The configuration-source selection of `_normalize_record`
(lines 514-523): the truthy top-level `configuration` value, else the
truthy `configuration` value inside a dict-valued `extra`. -/
def selectConfigData (raw_data : List (String × Json)) : Option Json :=
  match dictGet raw_data "configuration" with
  | some c =>
      if jsonTruthy c then some c else selectConfigFromExtra raw_data
  | none => selectConfigFromExtra raw_data
where
  selectConfigFromExtra (raw_data : List (String × Json)) : Option Json :=
    match dictGet raw_data "extra" with
    | some (.obj extra) =>
        match dictGet extra "configuration" with
        | some c => if jsonTruthy c then some c else none
        | none => none
    | _ => none

/-- The id normalization of `_normalize_record` (lines 539-552):
strings go through `int()`, ints (and bools, which Python treats as
ints) pass through, anything else is skipped. -/
def coerceParamId (v : Option Json) : Option Int :=
  match v with
  | some (.s str) => pyIntOfString str
  | some (.i n) => some n
  | some (.b bv) => some (if bv then 1 else 0)
  | _ => none

/-- The dict-valued parameters found in a (translated) configuration
tree: for each dict entry of `paramtypeitems` with a list-valued
`paramitems`, the dict-valued elements of that list (lines 530-538). -/
def paramDicts (cd : Json) : List (List (String × Json)) :=
  match cd with
  | .obj fields =>
      match dictGet fields "paramtypeitems" with
      | some (.arr paramtypeitems) => paramtypeitems.flatMap paramItemsOf
      | _ => []
  | _ => []
where
  paramItemsOf : Json → List (List (String × Json))
    | .obj pfs =>
        match dictGet pfs "paramitems" with
        | some (.arr paramitems) =>
            paramitems.filterMap (fun p =>
              match p with
              | .obj fields => some fields
              | _ => none)
        | _ => []
    | _ => []

/-- One parameter's contribution to `configuration_dict`
(lines 539-562): keep it iff its id coerces to a whitelisted integer,
keyed by that integer rendered as a string, holding the parameter's
`name` / `value` pair (defaulting to the empty string). -/
def configStep (d : List (String × (Json × Json)))
    (param : List (String × Json)) : List (String × (Json × Json)) :=
  match coerceParamId (dictGet param "id") with
  | some pid =>
      if pid ∈ CONFIG_PARAM_IDS then
        assocSet d (toString pid)
          ((dictGet param "name").getD (.s ""),
           (dictGet param "value").getD (.s ""))
      else d
  | none => d

/-- The configuration extraction of `_normalize_record` (lines 511-564):
select the configuration subtree, translate it, collect the whitelisted
parameters, and store `None` instead of an empty mapping. -/
def extractConfiguration (tr : String → String)
    (raw_data : List (String × Json)) :
    Option (List (String × (Json × Json))) :=
  match selectConfigData raw_data with
  | none => none
  | some cd =>
      let d := (paramDicts (translate_field tr cd)).foldl configStep []
      if d.isEmpty then none else some d

/-- Whether one parameter dict carries an id coercible to a whitelisted
integer (the keep-condition of lines 539-555). -/
def paramWhitelisted (param : List (String × Json)) : Bool :=
  match coerceParamId (dictGet param "id") with
  | some pid => decide (pid ∈ CONFIG_PARAM_IDS)
  | none => false

/-- Whether some parameter of the checked configuration subtree (after
translation) has an id coercible to a whitelisted integer. -/
def hasWhitelistedParam (tr : String → String)
    (raw_data : List (String × Json)) : Bool :=
  match selectConfigData raw_data with
  | none => false
  | some cd => (paramDicts (translate_field tr cd)).any paramWhitelisted

/-! Theorems.  First some laws of the dict model and of the delta-key
marker, then the claims. -/

theorem dictGet_cons_eq {α : Type} (a : String) (b : α)
    (tl : List (String × α)) : dictGet ((a, b) :: tl) a = some b := by
  unfold dictGet
  rw [@List.find?_cons_of_pos (String × α) (fun p => p.1 == a) (a, b) tl
    (by simp)]
  rfl

theorem dictGet_cons_ne {α : Type} {a k' : String} (b : α)
    (tl : List (String × α)) (h : ¬ a = k') :
    dictGet ((a, b) :: tl) k' = dictGet tl k' := by
  unfold dictGet
  rw [@List.find?_cons_of_neg (String × α) (fun p => p.1 == k') (a, b) tl
    (by simpa using h)]

theorem dictGet_assocSet {α : Type} (l : List (String × α)) (k k' : String)
    (v : α) :
    dictGet (assocSet l k v) k' = if k' = k then some v else dictGet l k' := by
  induction l with
  | nil =>
      by_cases hk : k' = k
      · subst hk; simp [assocSet, dictGet_cons_eq]
      · rw [if_neg hk]
        simp only [assocSet]
        rw [dictGet_cons_ne v [] (fun h => hk h.symm)]
  | cons hd tl ih =>
      obtain ⟨a, b⟩ := hd
      by_cases hak : a = k
      · subst hak
        have ha : assocSet ((a, b) :: tl) a v = (a, v) :: tl := by
          simp [assocSet]
        rw [ha]
        by_cases hk : k' = a
        · subst hk; rw [if_pos rfl, dictGet_cons_eq]
        · rw [if_neg hk, dictGet_cons_ne v tl (fun h => hk h.symm),
            dictGet_cons_ne b tl (fun h => hk h.symm)]
      · have ha : assocSet ((a, b) :: tl) k v = (a, b) :: assocSet tl k v := by
          simp [assocSet, hak]
        rw [ha]
        by_cases hk : k' = a
        · subst hk
          rw [if_neg hak, dictGet_cons_eq, dictGet_cons_eq]
        · rw [dictGet_cons_ne b (assocSet tl k v) (fun h => hk h.symm), ih,
            dictGet_cons_ne b tl (fun h => hk h.symm)]

theorem mem_assocSet {α : Type} {l : List (String × α)} {k k' : String}
    {v v' : α} (h : (k', v') ∈ assocSet l k v) :
    (k', v') ∈ l ∨ (k', v') = (k, v) := by
  induction l with
  | nil => simpa [assocSet] using h
  | cons hd tl ih =>
      obtain ⟨a, b⟩ := hd
      by_cases hak : a = k
      · subst hak
        rcases (by simpa [assocSet] using h :
            (k' = a ∧ v' = v) ∨ (k', v') ∈ tl) with ⟨h1, h2⟩ | h1
        · exact Or.inr (by simp [h1, h2])
        · exact Or.inl (List.mem_cons_of_mem _ h1)
      · rcases (by simpa [assocSet, hak] using h :
            (k' = a ∧ v' = b) ∨ (k', v') ∈ assocSet tl k v) with ⟨h1, h2⟩ | h1
        · exact Or.inl (by simp [h1, h2])
        · rcases ih h1 with h2 | h2
          · exact Or.inl (List.mem_cons_of_mem _ h2)
          · exact Or.inr h2

theorem assocSet_ne_nil {α : Type} (l : List (String × α)) (k : String)
    (v : α) : assocSet l k v ≠ [] := by
  cases l with
  | nil => simp [assocSet]
  | cons hd tl =>
      obtain ⟨a, b⟩ := hd
      by_cases hak : a = k <;> simp [assocSet, hak]

theorem string_data_ext (a b : String) (h : a.data = b.data) : a = b := by
  cases a; cases b; exact congrArg String.mk h

theorem string_data_append (a b : String) : (a ++ b).data = a.data ++ b.data := by
  cases a; cases b; rfl

theorem hasNewMarker_append (k : String) :
    hasNewMarker ("new_" ++ k) = true := by
  have h : ("new_" ++ k).data.take 4 = "new_".data := by
    rw [string_data_append]
    have h4 : "new_".data.length = 4 := by decide
    rw [← h4, List.take_left]
  simp [hasNewMarker, h]

theorem stripNewMarker_append (k : String) :
    stripNewMarker ("new_" ++ k) = k := by
  have h : ("new_" ++ k).data.drop 4 = k.data := by
    rw [string_data_append]
    have h4 : "new_".data.length = 4 := by decide
    rw [← h4, List.drop_left]
  cases k with
  | mk kd => simp [stripNewMarker, h]

theorem marker_decompose {s : String} (h : hasNewMarker s = true) :
    "new_" ++ stripNewMarker s = s := by
  have hdata : s.data.take 4 = "new_".data := of_decide_eq_true h
  apply string_data_ext
  rw [string_data_append]
  show "new_".data ++ s.data.drop 4 = s.data
  rw [← hdata]
  exact List.take_append_drop 4 s.data

theorem marker_append_inj {a b : String}
    (h : ("new_" ++ a : String) = "new_" ++ b) : a = b := by
  have := congrArg stripNewMarker h
  rwa [stripNewMarker_append, stripNewMarker_append] at this

/-- Each incoming field is written to its `writeKey`. -/
theorem merge_json_cons (E : List (String × Json)) (kv : String × Json)
    (rest : List (String × Json)) :
    merge_json E (kv :: rest) =
      merge_json (assocSet E (writeKey kv.1) kv.2) rest := by
  simp only [merge_json, List.foldl_cons, writeKey]
  by_cases h : hasNewMarker kv.1 <;> simp [h]

theorem merge_json_preserve (N : List (String × Json)) :
    ∀ (E : List (String × Json)) (k : String),
      (∀ p ∈ N, writeKey p.1 ≠ k) →
      dictGet (merge_json E N) k = dictGet E k := by
  induction N with
  | nil => intro E k _; simp [merge_json]
  | cons kv rest ih =>
      intro E k h
      rw [merge_json_cons, ih _ k (fun p hp => h p (List.mem_cons_of_mem _ hp)),
        dictGet_assocSet, if_neg]
      exact fun hk => h kv (List.mem_cons_self _ _) (hk ▸ rfl)

theorem merge_json_written (N₁ N₂ : List (String × Json)) (s k : String)
    (v : Json) (E : List (String × Json)) (hw : writeKey s = k)
    (hafter : ∀ p ∈ N₂, writeKey p.1 ≠ k) :
    dictGet (merge_json E (N₁ ++ (s, v) :: N₂)) k = some v := by
  have hsplit : merge_json E (N₁ ++ (s, v) :: N₂) =
      merge_json (assocSet (merge_json E N₁) k v) N₂ := by
    simp only [merge_json, List.foldl_append, List.foldl_cons]
    have : ∀ (M : List (String × Json)),
        (if hasNewMarker s then assocSet M (stripNewMarker s) v
         else assocSet M s v) = assocSet M k v := by
      intro M
      by_cases h : hasNewMarker s = true
      · simp only [writeKey, h, if_true] at hw
        rw [if_pos h, hw]
      · rw [writeKey, if_neg h] at hw
        rw [if_neg h, hw]
    rw [this]
  rw [hsplit, merge_json_preserve _ _ _ hafter, dictGet_assocSet, if_pos rfl]

theorem writeKey_of_marker {p1 k : String} (hm : hasNewMarker p1 = true)
    (hwk : writeKey p1 = k) : p1 = "new_" ++ k := by
  have hs : stripNewMarker p1 = k := by simpa [writeKey, hm] using hwk
  rw [← marker_decompose hm, hs]

theorem writeKey_of_no_marker {p1 : String} (hm : ¬ hasNewMarker p1 = true) :
    writeKey p1 = p1 := by
  simp [writeKey, hm]

theorem nodup_middle_not_mem {α : Type} {l₁ l₂ : List α} {a : α}
    (h : (l₁ ++ a :: l₂).Nodup) : a ∉ l₂ :=
  (List.nodup_cons.mp ((List.sublist_append_right l₁ (a :: l₂)).nodup h)).1

theorem keys_middle {l₁ l₂ : List (String × Json)} {s : String} {v : Json}
    (hnodup : ((l₁ ++ (s, v) :: l₂).map Prod.fst).Nodup) :
    s ∉ l₂.map Prod.fst := by
  have hrw : (l₁ ++ (s, v) :: l₂).map Prod.fst =
      l₁.map Prod.fst ++ s :: l₂.map Prod.fst := by simp
  rw [hrw] at hnodup
  exact nodup_middle_not_mem hnodup

/-- C5: the payload merge of a `changed` record folds each `new_`-prefixed
key of the incoming payload onto the unprefixed key name, overwriting the
existing value there; every other incoming key is written directly; and
every existing key that the incoming payload does not target — neither
present in it nor the target of one of its delta keys — keeps its
existing value.  In particular (last conjunct) an incoming payload of
delta keys only leaves every non-targeted existing field untouched. -/
theorem merge_json_delta_semantics (E N : List (String × Json))
    (hnodup : (N.map Prod.fst).Nodup) :
    (∀ k v, ("new_" ++ k, v) ∈ N →
       (hasNewMarker k = false → k ∉ N.map Prod.fst) →
       dictGet (merge_json E N) k = some v) ∧
    (∀ k v, (k, v) ∈ N → hasNewMarker k = false →
       ("new_" ++ k) ∉ N.map Prod.fst →
       dictGet (merge_json E N) k = some v) ∧
    (∀ k, k ∉ N.map Prod.fst → ("new_" ++ k) ∉ N.map Prod.fst →
       dictGet (merge_json E N) k = dictGet E k) ∧
    ((∀ p ∈ N, hasNewMarker p.1 = true) →
       ∀ k, ("new_" ++ k) ∉ N.map Prod.fst →
         dictGet (merge_json E N) k = dictGet E k) := by
  refine ⟨?_, ?_, ?_, ?_⟩
  · intro k v hmem hdirect
    obtain ⟨l₁, l₂, hN⟩ := List.append_of_mem hmem
    subst hN
    apply merge_json_written l₁ l₂ ("new_" ++ k) k v E
    · simp [writeKey, hasNewMarker_append, stripNewMarker_append]
    · intro p hp hwk
      by_cases hm : hasNewMarker p.1 = true
      · have hp1 : p.1 = "new_" ++ k := writeKey_of_marker hm hwk
        exact keys_middle hnodup (hp1 ▸ List.mem_map_of_mem Prod.fst hp)
      · have hp1 : p.1 = k := (writeKey_of_no_marker hm).symm.trans hwk
        have hkf : hasNewMarker k = false := by
          rw [← hp1]; exact eq_false_of_ne_true hm
        exact hdirect hkf (hp1 ▸ List.mem_map_of_mem Prod.fst
          (List.mem_append_right l₁ (List.mem_cons_of_mem _ hp)))
  · intro k v hmem hkm hnone
    obtain ⟨l₁, l₂, hN⟩ := List.append_of_mem hmem
    subst hN
    apply merge_json_written l₁ l₂ k k v E
    · simp [writeKey, hkm]
    · intro p hp hwk
      by_cases hm : hasNewMarker p.1 = true
      · have hp1 : p.1 = "new_" ++ k := writeKey_of_marker hm hwk
        exact hnone (hp1 ▸ List.mem_map_of_mem Prod.fst
          (List.mem_append_right l₁ (List.mem_cons_of_mem _ hp)))
      · have hp1 : p.1 = k := (writeKey_of_no_marker hm).symm.trans hwk
        exact keys_middle hnodup (hp1 ▸ List.mem_map_of_mem Prod.fst hp)
  · intro k h1 h2
    apply merge_json_preserve
    intro p hp hwk
    by_cases hm : hasNewMarker p.1 = true
    · exact h2 (writeKey_of_marker hm hwk ▸ List.mem_map_of_mem Prod.fst hp)
    · exact h1 (((writeKey_of_no_marker hm).symm.trans hwk) ▸
        List.mem_map_of_mem Prod.fst hp)
  · intro hall k h2
    apply merge_json_preserve
    intro p hp hwk
    exact h2 (writeKey_of_marker (hall p hp) hwk ▸
      List.mem_map_of_mem Prod.fst hp)

/-- Witness for C5 at concrete payloads: existing
`{price: 1, color: "red"}` merged with the delta-only payload
`{new_price: 2}` overwrites `price` and keeps `color`. -/
theorem merge_json_delta_semantics_witness :
    dictGet (merge_json [("price", Json.i 1), ("color", Json.s "red")]
      [("new_price", Json.i 2)]) "price" = some (Json.i 2) ∧
    dictGet (merge_json [("price", Json.i 1), ("color", Json.s "red")]
      [("new_price", Json.i 2)]) "color" = some (Json.s "red") := by
  have h := merge_json_delta_semantics
    [("price", Json.i 1), ("color", Json.s "red")]
    [("new_price", Json.i 2)] (by simp)
  constructor
  · exact h.1 "price" (Json.i 2) (by simp)
      (fun _ => by intro hmem; simp at hmem)
  · exact h.2.2.1 "color" (by simp) (by simp)

theorem findRaw_none {db : List RawRecord} {id : String}
    (habsent : ∀ r ∈ db, ¬ r.inner_id = id) : findRaw db id = none := by
  unfold findRaw
  rw [List.find?_eq_none]
  intro r hr
  simpa using habsent r hr

/-- C6: applying the same `added` change twice to a Raw Store that does
not yet hold the id creates exactly one RawRecord — active
(`active_status = 0`) and unprocessed — on the first application, and the
second application is counted as a duplicate (no load, update, removal
or error) and leaves the whole store unchanged. -/
theorem added_twice_idempotent (id : String) (hid : ¬ id = "")
    (d : List (String × Json)) (t now now2 : Int) (src : String)
    (db : List RawRecord) (habsent : ∀ r ∈ db, ¬ r.inner_id = id) :
    save_changes now src true db [⟨some id, some "added", some t, some d⟩] =
      .ok (⟨1, 0, 0, 0, 0⟩,
           db ++ [⟨id, "added", t, d, now, now, src, 0, false⟩]) ∧
    ((db ++ [(⟨id, "added", t, d, now, now, src, 0, false⟩ : RawRecord)]).filter
        (fun r => r.inner_id == id)).length = 1 ∧
    (⟨id, "added", t, d, now, now, src, 0, false⟩ : RawRecord).active_status
        = 0 ∧
    (⟨id, "added", t, d, now, now, src, 0, false⟩ : RawRecord).is_processed
        = false ∧
    save_changes now2 src true
        (db ++ [⟨id, "added", t, d, now, now, src, 0, false⟩])
        [⟨some id, some "added", some t, some d⟩] =
      .ok (⟨0, 0, 0, 0, 1⟩,
           db ++ [⟨id, "added", t, d, now, now, src, 0, false⟩]) := by
  have hfind : findRaw db id = none := findRaw_none habsent
  have hfd : List.find? (fun r => r.inner_id == id) db = none := hfind
  have hfind2 : findRaw (db ++ [⟨id, "added", t, d, now, now, src, 0,
      false⟩]) id = some ⟨id, "added", t, d, now, now, src, 0, false⟩ := by
    unfold findRaw
    rw [List.find?_append, hfd]
    simp
  refine ⟨?_, ?_, rfl, rfl, ?_⟩
  · simp [save_changes, saveChangeStep, hid, hfind, SaveStats.zero]
  · rw [List.filter_append]
    have h1 : db.filter (fun r => r.inner_id == id) = [] := by
      rw [List.filter_eq_nil_iff]
      intro r hr
      simpa using habsent r hr
    rw [h1]
    simp
  · simp [save_changes, saveChangeStep, hid, hfind2, SaveStats.zero]

/-- Witness for C6 at a concrete change record and an empty store. -/
theorem added_twice_idempotent_witness :
    save_changes 1 "daily_update" true []
        [⟨some "x", some "added", some 7, some [("k", Json.s "v")]⟩] =
      .ok (⟨1, 0, 0, 0, 0⟩,
           [⟨"x", "added", 7, [("k", Json.s "v")], 1, 1, "daily_update", 0,
             false⟩]) ∧
    save_changes 2 "daily_update" true
        [⟨"x", "added", 7, [("k", Json.s "v")], 1, 1, "daily_update", 0,
          false⟩]
        [⟨some "x", some "added", some 7, some [("k", Json.s "v")]⟩] =
      .ok (⟨0, 0, 0, 0, 1⟩,
           [⟨"x", "added", 7, [("k", Json.s "v")], 1, 1, "daily_update", 0,
             false⟩]) := by
  have h := added_twice_idempotent "x" (by decide) [("k", Json.s "v")] 7 1 2
    "daily_update" [] (by simp)
  exact ⟨h.1, h.2.2.2.2⟩

theorem processOne_errors (current_year : Int) :
    ∀ (records : List RawRecord)
      (acc : BatchStats × List RawRecord × List ProcessedRecord),
      (records.foldl (processOne current_year) acc).1.errors =
        acc.1.errors +
          (records.filter (fun r => !recordValid current_year r)).length := by
  intro records
  induction records with
  | nil => intro acc; simp
  | cons r rest ih =>
      intro acc
      obtain ⟨stats, db, proc⟩ := acc
      rw [List.foldl_cons, ih]
      by_cases hv : recordValid current_year r
      · have hstep : (processOne current_year (stats, db, proc) r).1.errors =
            stats.errors := by
          simp [processOne, hv]
          split <;> rfl
        rw [hstep]
        simp [List.filter_cons, hv]
      · have hstep : (processOne current_year (stats, db, proc) r).1.errors =
            stats.errors + 1 := by
          simp [processOne, hv]
        rw [hstep]
        have hb : (!recordValid current_year r) = true := by simp [hv]
        simp [List.filter_cons, hb]
        omega

/-- C3: when the commit of a normalization batch fails, the whole batch
is rolled back: the raw store and the processed store are unchanged (so
every record of the batch still has `is_processed = false`, including
the records whose extraction and validation succeeded and which had been
staged as processed), the batch reports zero processed / created /
updated, and every record of the batch is counted as an error on top of
the per-record validation errors. -/
theorem process_batch_commit_failure (current_year : Int)
    (batch_size offset : Nat) (db : List RawRecord)
    (proc : List ProcessedRecord) :
    (process_batch current_year batch_size offset false db proc).2.1 = db ∧
    (process_batch current_year batch_size offset false db proc).2.2 = proc ∧
    (process_batch current_year batch_size offset false db proc).1.processed
        = 0 ∧
    (process_batch current_year batch_size offset false db proc).1.created
        = 0 ∧
    (process_batch current_year batch_size offset false db proc).1.updated
        = 0 ∧
    (process_batch current_year batch_size offset false db proc).1.errors =
      ((selectBatch db offset batch_size).filter
          (fun r => !recordValid current_year r)).length +
        (selectBatch db offset batch_size).length ∧
    ∀ r ∈ selectBatch db offset batch_size, r.is_processed = false := by
  have hmem : ∀ r ∈ selectBatch db offset batch_size,
      r.is_processed = false := by
    intro r hr
    have h1 : r ∈ (db.filter (fun x => !x.is_processed)).drop offset :=
      List.mem_of_mem_take hr
    have h2 : r ∈ db.filter (fun x => !x.is_processed) :=
      List.mem_of_mem_drop h1
    have h3 := (List.mem_filter.mp h2).2
    simpa using h3
  by_cases hempty : (selectBatch db offset batch_size).isEmpty
  · have hnil : selectBatch db offset batch_size = [] := by
      simpa [List.isEmpty_iff] using hempty
    refine ⟨?_, ?_, ?_, ?_, ?_, ?_, hmem⟩ <;>
      simp [process_batch, hempty, hnil, BatchStats.zero]
  · have herr := processOne_errors current_year
      (selectBatch db offset batch_size) (.zero, db, proc)
    refine ⟨?_, ?_, ?_, ?_, ?_, ?_, hmem⟩ <;>
      simp [process_batch, hempty, BatchStats.zero] <;>
      simp [BatchStats.zero] at herr <;> omega

/-- C1 (failing input): an error-free normalization run over two
unprocessed RawRecords with batch size 1 and no record ceiling marks
only the first record processed.  After the first batch commits, the
first record leaves the `is_processed = false` selection, yet the loop
still advances the offset by the batch size, so the second record is
skipped by the next selection, the batch comes back empty and the loop
stops: the run reports one processed record, zero errors, and leaves
record "b" unprocessed, although the claim (and the function's own
docstring, "Normalize all unprocessed records") requires every
initially-unprocessed record to be processed. -/
theorem normalize_skips_remaining_unprocessed :
    (normalize 2026 1 none (fun _ => true)
      [⟨"a", "added", 0, [], 0, 0, "s", 0, false⟩,
       ⟨"b", "added", 0, [], 0, 0, "s", 0, false⟩] []).1.total_processed = 1 ∧
    (normalize 2026 1 none (fun _ => true)
      [⟨"a", "added", 0, [], 0, 0, "s", 0, false⟩,
       ⟨"b", "added", 0, [], 0, 0, "s", 0, false⟩] []).1.total_errors = 0 ∧
    ((normalize 2026 1 none (fun _ => true)
      [⟨"a", "added", 0, [], 0, 0, "s", 0, false⟩,
       ⟨"b", "added", 0, [], 0, 0, "s", 0, false⟩] []).2.1.map
        (fun r => (r.inner_id, r.is_processed))) =
      [("a", true), ("b", false)] := by
  exact ⟨rfl, rfl, rfl⟩

/-- C7 counterexample: an extracted record with a valid identity key and
year 0 — a year outside [1900, current_year + 1], which the claim says
is rejected — is accepted by the code, because the truthiness guard
`if normalized.get('year'):` skips the range check for the falsy 0. -/
theorem validate_year_zero_counterexample :
    validate_normalized_data 2026
      ⟨some "1001", some 0, none, none, none, none⟩ = true ∧
    ¬ ((1900 : Int) ≤ 0 ∧ (0 : Int) ≤ 2026 + 1) :=
  ⟨rfl, by omega⟩

theorem optStrTruthy_eq_false (o : Option String) :
    optStrTruthy o = false ↔ o = none ∨ o = some "" := by
  cases o with
  | none => simp [optStrTruthy]
  | some v => simp [optStrTruthy]

theorem intFieldOk_eq_false (lo hi : Int) (o : Option Int) :
    intFieldOk lo hi o = false ↔
      ∃ v, o = some v ∧ v ≠ 0 ∧ (v < lo ∨ hi < v) := by
  cases o with
  | none => simp [intFieldOk]
  | some v =>
      by_cases hz : v = 0
      · simp [intFieldOk, hz]
      · simp [intFieldOk, hz, decide_eq_false_iff_not]
        omega

theorem dispOk_eq_false (o : Option ℚ) :
    (match o with
     | none => true
     | some d => if d = 0 then true else decide (0 ≤ d ∧ d ≤ 20)) = false ↔
      ∃ d, o = some d ∧ (d < 0 ∨ 20 < d) := by
  cases o with
  | none => simp
  | some d =>
      by_cases hz : d = 0
      · subst hz
        norm_num
      · have hred : (match (some d : Option ℚ) with
            | none => true
            | some d => if d = 0 then true else decide (0 ≤ d ∧ d ≤ 20)) =
            (if d = 0 then true else decide ((0:ℚ) ≤ d ∧ d ≤ 20)) := rfl
        rw [hred, if_neg hz, decide_eq_false_iff_not]
        constructor
        · intro h
          refine ⟨d, rfl, ?_⟩
          by_contra hc
          push_neg at hc
          exact h hc
        · rintro ⟨d', hd', h1⟩ ⟨hge, hle⟩
          rw [Option.some.injEq] at hd'
          subst hd'
          rcases h1 with h1 | h1
          · exact absurd h1 (not_lt.mpr hge)
          · exact absurd h1 (not_lt.mpr hle)

/-- C7 amended: post-extraction validation rejects a record exactly when
its identity key is missing or empty, its year is non-zero and lies
outside [1900, current_year + 1], or its price / mileage / power /
displacement is negative or exceeds its fixed upper bound (100000000,
10000000, 10000, 20); zero-valued numeric fields escape their range
check because the code's truthiness guard skips them.  The boundary part
of the claim survives: year = current_year + 1 is accepted and
year = current_year + 2 is rejected. -/
theorem validate_rejects_amended (cy : Int) (n : NormalizedData) :
    (validate_normalized_data cy n = false ↔
      (n.inner_id = none ∨ n.inner_id = some "") ∨
      (∃ y, n.year = some y ∧ y ≠ 0 ∧ (y < 1900 ∨ cy + 1 < y)) ∨
      (∃ p, n.price = some p ∧ (p < 0 ∨ 100000000 < p)) ∨
      (∃ m, n.km_age = some m ∧ (m < 0 ∨ 10000000 < m)) ∨
      (∃ w, n.power = some w ∧ (w < 0 ∨ 10000 < w)) ∨
      (∃ d, n.displacement = some d ∧ (d < 0 ∨ 20 < d))) ∧
    (1899 ≤ cy →
      validate_normalized_data cy
        ⟨some "1001", some (cy + 1), none, none, none, none⟩ = true ∧
      validate_normalized_data cy
        ⟨some "1001", some (cy + 2), none, none, none, none⟩ = false) := by
  constructor
  · have hprice : (∃ p, n.price = some p ∧ p ≠ 0 ∧
        (p < 0 ∨ 100000000 < p)) ↔
        (∃ p, n.price = some p ∧ (p < 0 ∨ 100000000 < p)) :=
      exists_congr fun p => by
        constructor
        · rintro ⟨h1, _, h3⟩; exact ⟨h1, h3⟩
        · rintro ⟨h1, h3⟩; exact ⟨h1, by omega, h3⟩
    have hkm : (∃ m, n.km_age = some m ∧ m ≠ 0 ∧
        (m < 0 ∨ 10000000 < m)) ↔
        (∃ m, n.km_age = some m ∧ (m < 0 ∨ 10000000 < m)) :=
      exists_congr fun m => by
        constructor
        · rintro ⟨h1, _, h3⟩; exact ⟨h1, h3⟩
        · rintro ⟨h1, h3⟩; exact ⟨h1, by omega, h3⟩
    have hpow : (∃ w, n.power = some w ∧ w ≠ 0 ∧
        (w < 0 ∨ 10000 < w)) ↔
        (∃ w, n.power = some w ∧ (w < 0 ∨ 10000 < w)) :=
      exists_congr fun w => by
        constructor
        · rintro ⟨h1, _, h3⟩; exact ⟨h1, h3⟩
        · rintro ⟨h1, h3⟩; exact ⟨h1, by omega, h3⟩
    rw [show validate_normalized_data cy n =
        (optStrTruthy n.inner_id &&
         intFieldOk 1900 (cy + 1) n.year &&
         intFieldOk 0 100000000 n.price &&
         intFieldOk 0 10000000 n.km_age &&
         intFieldOk 0 10000 n.power &&
         (match n.displacement with
          | none => true
          | some d => if d = 0 then true else decide (0 ≤ d ∧ d ≤ 20)))
        from rfl]
    simp only [Bool.and_eq_false_iff]
    rw [optStrTruthy_eq_false, intFieldOk_eq_false, intFieldOk_eq_false,
      intFieldOk_eq_false, intFieldOk_eq_false, dispOk_eq_false, hprice,
      hkm, hpow]
    simp only [or_assoc]
  · intro hcy
    constructor
    · have h0 : (cy + 1 : Int) ≠ 0 := by omega
      have hy : intFieldOk 1900 (cy + 1) (some (cy + 1)) = true := by
        have hred : intFieldOk 1900 (cy + 1) (some (cy + 1)) =
            (if cy + 1 = 0 then true else
              decide (1900 ≤ cy + 1 ∧ cy + 1 ≤ cy + 1)) := rfl
        rw [hred, if_neg h0, decide_eq_true_eq]
        omega
      show (optStrTruthy (some "1001") &&
            intFieldOk 1900 (cy + 1) (some (cy + 1)) &&
            intFieldOk 0 100000000 none &&
            intFieldOk 0 10000000 none &&
            intFieldOk 0 10000 none && true) = true
      rw [hy]
      rfl
    · have h0 : (cy + 2 : Int) ≠ 0 := by omega
      have hy : intFieldOk 1900 (cy + 1) (some (cy + 2)) = false := by
        have hred : intFieldOk 1900 (cy + 1) (some (cy + 2)) =
            (if cy + 2 = 0 then true else
              decide (1900 ≤ cy + 2 ∧ cy + 2 ≤ cy + 1)) := rfl
        rw [hred, if_neg h0, decide_eq_false_iff_not]
        omega
      show (optStrTruthy (some "1001") &&
            intFieldOk 1900 (cy + 1) (some (cy + 2)) &&
            intFieldOk 0 100000000 none &&
            intFieldOk 0 10000000 none &&
            intFieldOk 0 10000 none && true) = false
      rw [hy]
      rfl

/-- Witness for the amended C7 at `current_year = 2026`: year 2027 is
accepted and year 2028 rejected. -/
theorem validate_rejects_amended_witness :
    validate_normalized_data 2026
      ⟨some "1001", some (2026 + 1), none, none, none, none⟩ = true ∧
    validate_normalized_data 2026
      ⟨some "1001", some (2026 + 2), none, none, none, none⟩ = false :=
  (validate_rejects_amended 2026
    ⟨some "1001", none, none, none, none, none⟩).2 (by norm_num)

/-- C9: whenever at least one error was recorded during a run, the
`operations_log` entry gets status "ERROR" and a detail stating the
error count, even when the caller passed "OK"; a caller-supplied "OK"
reaches the ledger only when zero errors were recorded.  The caller
status ranges over the documented domain {"OK", "ERROR"}. -/
theorem finish_operation_error_dominates (status : String)
    (errors_count : Nat) (hstatus : status = "OK" ∨ status = "ERROR") :
    (0 < errors_count →
      finish_operation status errors_count =
        ("ERROR",
         some ("Completed with " ++ toString errors_count ++ " errors"))) ∧
    ((finish_operation status errors_count).1 = "OK" →
      status = "OK" ∧ errors_count = 0) := by
  constructor
  · intro herr
    rcases hstatus with h | h <;> subst h <;>
      simp [finish_operation, herr]
  · intro hok
    rcases hstatus with h | h
    · subst h
      refine ⟨rfl, ?_⟩
      by_contra hne
      have herr : 0 < errors_count := Nat.pos_of_ne_zero hne
      simp [finish_operation, herr] at hok
    · subst h
      simp [finish_operation] at hok

/-- Witness for C9: three recorded errors override a caller "OK". -/
theorem finish_operation_error_dominates_witness :
    finish_operation "OK" 3 =
      ("ERROR", some ("Completed with " ++ toString (3 : Nat) ++ " errors")) :=
  (finish_operation_error_dominates "OK" 3 (Or.inl rfl)).1 (by norm_num)

theorem retryGo_attempt_le {E A : Type} (m : Nat) (t : ℚ)
    (out : Nat → Except E A) (el : Nat → ℚ) (obs : Nat → Except Unit Unit) :
    ∀ (remaining attempt : Nat),
      (retryGo m t out el obs attempt remaining).2 ≤ attempt - 1 + remaining := by
  intro remaining
  induction remaining with
  | zero => intro attempt; simp [retryGo]
  | succ r ih =>
      intro attempt
      simp only [retryGo]
      cases hout : out attempt with
      | ok v => simp; omega
      | error e =>
          simp only []
          by_cases h1 : t ≤ el attempt
          · rw [if_pos h1]; simp; omega
          · rw [if_neg h1]
            by_cases h2 : m ≤ attempt
            · rw [if_pos h2]; simp; omega
            · rw [if_neg h2]
              cases obs attempt with
              | ok u => have := ih (attempt + 1); simp only []; omega
              | error u => have := ih (attempt + 1); simp only []; omega

theorem retryGo_obs_irrelevant {E A : Type} (m : Nat) (t : ℚ)
    (out : Nat → Except E A) (el : Nat → ℚ)
    (obs obs' : Nat → Except Unit Unit) :
    ∀ (remaining attempt : Nat),
      retryGo m t out el obs attempt remaining =
        retryGo m t out el obs' attempt remaining := by
  intro remaining
  induction remaining with
  | zero => intro attempt; simp [retryGo]
  | succ r ih =>
      intro attempt
      simp only [retryGo]
      cases hout : out attempt with
      | ok v => rfl
      | error e =>
          simp only []
          by_cases h1 : t ≤ el attempt
          · rw [if_pos h1, if_pos h1]
          · rw [if_neg h1, if_neg h1]
            by_cases h2 : m ≤ attempt
            · rw [if_pos h2, if_pos h2]
            · rw [if_neg h2, if_neg h2]
              cases obs attempt <;> cases obs' attempt <;>
                simp only [] <;> exact ih (attempt + 1)

theorem retryGo_reach {E A : Type} (m : Nat) (t : ℚ)
    (out : Nat → Except E A) (el : Nat → ℚ) (obs : Nat → Except Unit Unit) :
    ∀ (r a i : Nat), a ≤ i → i < a + r → i ≤ m →
      (∀ j, a ≤ j → j < i → (∃ e, out j = .error e) ∧ el j < t) →
      ((∀ v, out i = .ok v →
          retryGo m t out el obs a r = (.ok v, i)) ∧
       (∀ e, out i = .error e → (t ≤ el i ∨ i = m) →
          retryGo m t out el obs a r = (.error (some e), i))) := by
  intro r
  induction r with
  | zero => intro a i h1 h2; omega
  | succ r ih =>
      intro a i h1 h2 h3 hprev
      by_cases hai : a = i
      · subst hai
        constructor
        · intro v hout
          simp only [retryGo, hout]
        · intro e hout hstop
          simp only [retryGo, hout]
          by_cases hel : t ≤ el a
          · rw [if_pos hel]
          · rw [if_neg hel]
            have hm : m ≤ a := by
              rcases hstop with hs | hs
              · exact absurd hs hel
              · omega
            rw [if_pos hm]
      · have hlt : a < i := lt_of_le_of_ne h1 hai
        obtain ⟨⟨e', hout'⟩, hel'⟩ := hprev a le_rfl hlt
        have hstep : retryGo m t out el obs a (r + 1) =
            retryGo m t out el obs (a + 1) r := by
          simp only [retryGo, hout']
          rw [if_neg (not_le.mpr hel'), if_neg (by omega : ¬ m ≤ a)]
          cases obs a <;> simp only []
        rw [hstep]
        exact ih (a + 1) i (by omega) (by omega) h3
          (fun j hj1 hj2 => hprev j (by omega) hj2)

/-- C8: the retry wrapper (`retry_sync` / `retry_async`, identical
control flow) returns the operation's result on its first successful
attempt and never makes more than `max_attempts` attempts; a failed
attempt re-raises that failure exactly when the observed elapsed time
has reached the total ceiling or the attempt was the last allowed one,
and otherwise the wrapper retries; the `on_retry` observer's outcome —
including a raised exception, which the code catches and logs — never
changes the wrapper's result. -/
theorem retry_wrapper_spec {E A : Type} (m : Nat) (t : ℚ)
    (out : Nat → Except E A) (el : Nat → ℚ)
    (obs obs' : Nat → Except Unit Unit) :
    ((retryRun m t out el obs).2 ≤ m) ∧
    (∀ i v, 1 ≤ i → i ≤ m → out i = .ok v →
      (∀ j, 1 ≤ j → j < i → (∃ e, out j = .error e) ∧ el j < t) →
      retryRun m t out el obs = (.ok v, i)) ∧
    (∀ i e, 1 ≤ i → i ≤ m → out i = .error e → (t ≤ el i ∨ i = m) →
      (∀ j, 1 ≤ j → j < i → (∃ e', out j = .error e') ∧ el j < t) →
      retryRun m t out el obs = (.error (some e), i)) ∧
    retryRun m t out el obs = retryRun m t out el obs' := by
  refine ⟨?_, ?_, ?_, ?_⟩
  · have h := retryGo_attempt_le m t out el obs m 1
    simpa [retryRun] using h
  · intro i v h1 h2 hout hprev
    exact (retryGo_reach m t out el obs m 1 i h1 (by omega) h2 hprev).1 v hout
  · intro i e h1 h2 hout hstop hprev
    exact (retryGo_reach m t out el obs m 1 i h1 (by omega) h2 hprev).2 e
      hout hstop
  · exact retryGo_obs_irrelevant m t out el obs obs' m 1

/-- Witness for C8: two attempts allowed, the first fails quickly, the
second succeeds; the wrapper returns the second attempt's value. -/
theorem retry_wrapper_spec_witness :
    retryRun 2 (100 : ℚ)
      (fun i => if i = 1 then Except.error 7 else Except.ok 42)
      (fun _ => 1) (fun _ => .ok ()) = (.ok 42, 2) :=
  (retry_wrapper_spec 2 100
      (fun i => if i = 1 then Except.error (7 : Nat) else Except.ok (42 : Nat))
      (fun _ => 1) (fun _ => .ok ()) (fun _ => .ok ())).2.1 2 42
    (by norm_num) (by norm_num) rfl
    (fun j h1 h2 => by
      have hj : j = 1 := by omega
      subst hj
      exact ⟨⟨7, rfl⟩, by norm_num⟩)

theorem configStep_of_not_whitelisted {d : List (String × (Json × Json))}
    {param : List (String × Json)} (h : paramWhitelisted param = false) :
    configStep d param = d := by
  unfold configStep
  unfold paramWhitelisted at h
  cases hc : coerceParamId (dictGet param "id") with
  | none => rfl
  | some pid =>
      rw [hc] at h
      simp only [decide_eq_false_iff_not] at h
      simp [h]

theorem configFold_nil_iff :
    ∀ (params : List (List (String × Json)))
      (acc : List (String × (Json × Json))),
      params.foldl configStep acc = [] ↔
        acc = [] ∧ ∀ p ∈ params, paramWhitelisted p = false := by
  intro params
  induction params with
  | nil => intro acc; simp
  | cons p rest ih =>
      intro acc
      rw [List.foldl_cons, ih]
      have hstep : configStep acc p = [] ↔
          acc = [] ∧ paramWhitelisted p = false := by
        by_cases hw : paramWhitelisted p = true
        · unfold configStep
          unfold paramWhitelisted at hw
          cases hc : coerceParamId (dictGet p "id") with
          | none => rw [hc] at hw; simp at hw
          | some pid =>
              rw [hc] at hw
              simp only [decide_eq_true_eq] at hw
              simp only [hw, if_true]
              constructor
              · intro habs
                exact absurd habs (assocSet_ne_nil _ _ _)
              · rintro ⟨-, habs⟩
                unfold paramWhitelisted at habs
                rw [hc] at habs
                simp [hw] at habs
        · have hf : paramWhitelisted p = false := eq_false_of_ne_true hw
          rw [configStep_of_not_whitelisted hf]
          simp [hf]
      rw [hstep]
      constructor
      · rintro ⟨⟨h1, h2⟩, h3⟩
        exact ⟨h1, by
          intro q hq
          rcases List.mem_cons.mp hq with rfl | hq'
          · exact h2
          · exact h3 q hq'⟩
      · rintro ⟨h1, h2⟩
        exact ⟨⟨h1, h2 p (List.mem_cons_self _ _)⟩,
          fun q hq => h2 q (List.mem_cons_of_mem _ hq)⟩

theorem configFold_mem :
    ∀ (params : List (List (String × Json)))
      (acc : List (String × (Json × Json))) (k : String)
      (nv : Json × Json),
      (k, nv) ∈ params.foldl configStep acc →
      (k, nv) ∈ acc ∨
        ∃ param ∈ params, ∃ pid,
          coerceParamId (dictGet param "id") = some pid ∧
          pid ∈ CONFIG_PARAM_IDS ∧ k = toString pid ∧
          nv = ((dictGet param "name").getD (.s ""),
                (dictGet param "value").getD (.s "")) := by
  intro params
  induction params with
  | nil => intro acc k nv h; exact Or.inl h
  | cons p rest ih =>
      intro acc k nv h
      rw [List.foldl_cons] at h
      rcases ih (configStep acc p) k nv h with h1 | h1
      · by_cases hw : paramWhitelisted p = true
        · unfold paramWhitelisted at hw
          cases hc : coerceParamId (dictGet p "id") with
          | none => rw [hc] at hw; simp at hw
          | some pid =>
              rw [hc] at hw
              simp only [decide_eq_true_eq] at hw
              rw [show configStep acc p =
                  assocSet acc (toString pid)
                    ((dictGet p "name").getD (.s ""),
                     (dictGet p "value").getD (.s "")) from by
                unfold configStep; rw [hc]; simp [hw]] at h1
              rcases mem_assocSet h1 with h2 | h2
              · exact Or.inl h2
              · refine Or.inr ⟨p, List.mem_cons_self _ _, pid, hc, hw, ?_, ?_⟩
                · exact congrArg Prod.fst h2
                · exact congrArg Prod.snd h2
        · rw [configStep_of_not_whitelisted (eq_false_of_ne_true hw)] at h1
          exact Or.inl h1
      · obtain ⟨param, hmem, rest'⟩ := h1
        exact Or.inr ⟨param, List.mem_cons_of_mem _ hmem, rest'⟩

/-- C10: the extracted `configuration` field is `None` — never an empty
mapping — exactly when no parameter of the checked configuration subtree
(the truthy top-level `configuration` value, else the truthy
`configuration` under a dict-valued `extra`, after translation) has an
id coercible to a whitelisted integer, which covers a payload with no
configuration subtree at all; otherwise it is a non-empty mapping each
of whose entries is keyed by a whitelisted id rendered in decimal and
holds that parameter's name/value pair. -/
theorem configuration_extraction_spec (tr : String → String)
    (raw_data : List (String × Json)) :
    (extractConfiguration tr raw_data = none ↔
      hasWhitelistedParam tr raw_data = false) ∧
    (∀ l, extractConfiguration tr raw_data = some l →
      l ≠ [] ∧
      ∀ k nv, (k, nv) ∈ l →
        ∃ param ∈ paramDicts (translate_field tr
            ((selectConfigData raw_data).getD .null)),
          ∃ pid, coerceParamId (dictGet param "id") = some pid ∧
            pid ∈ CONFIG_PARAM_IDS ∧ k = toString pid ∧
            nv = ((dictGet param "name").getD (.s ""),
                  (dictGet param "value").getD (.s ""))) := by
  cases hsel : selectConfigData raw_data with
  | none =>
      constructor
      · simp [extractConfiguration, hasWhitelistedParam, hsel]
      · intro l hl
        simp [extractConfiguration, hsel] at hl
  | some cd =>
      constructor
      · by_cases hd : (paramDicts (translate_field tr cd)).foldl configStep []
            = []
        · have hall := (configFold_nil_iff _ []).mp hd
          have hany : (paramDicts (translate_field tr cd)).any paramWhitelisted
              = false := by
            rw [List.any_eq_false]
            intro p hp
            simp [hall.2 p hp]
          simp [extractConfiguration, hasWhitelistedParam, hsel, hd, hany]
        · have hne : ¬ ((paramDicts (translate_field tr cd)).foldl configStep
              [] = []) := hd
          have hany : (paramDicts (translate_field tr cd)).any paramWhitelisted
              = true := by
            by_contra hc
            have hcf := eq_false_of_ne_true hc
            rw [List.any_eq_false] at hcf
            exact hne ((configFold_nil_iff _ []).mpr
              ⟨rfl, fun p hp => by simpa using hcf p hp⟩)
          have hiempty : ((paramDicts (translate_field tr cd)).foldl
              configStep []).isEmpty = false := by
            rw [List.isEmpty_eq_false_iff_exists_mem]
            cases hcase : (paramDicts (translate_field tr cd)).foldl
                configStep [] with
            | nil => exact absurd hcase hne
            | cons x xs => exact ⟨x, List.mem_cons_self _ _⟩
          simp [extractConfiguration, hasWhitelistedParam, hsel, hiempty,
            hany]
      · intro l hl
        have hl' : ((paramDicts (translate_field tr cd)).foldl configStep []
            ).isEmpty = false ∧
            (paramDicts (translate_field tr cd)).foldl configStep [] = l := by
          simp only [extractConfiguration, hsel] at hl
          by_cases he : ((paramDicts (translate_field tr cd)).foldl configStep
              []).isEmpty
          · rw [if_pos he] at hl; cases hl
          · rw [if_neg he] at hl
            exact ⟨eq_false_of_ne_true he, Option.some.inj hl⟩
        constructor
        · intro habs
          subst habs
          rw [hl'.2] at hl'
          simp at hl'
        · intro k nv hmem
          rcases configFold_mem _ [] k nv (hl'.2 ▸ hmem) with h | h
          · cases h
          · simpa [hsel] using h

/-- Witness for C10: a payload whose configuration subtree holds one
parameter with whitelisted id "93" yields a non-empty mapping. -/
theorem configuration_extraction_spec_witness :
    ([("93", (Json.s "n", Json.s "v"))] : List (String × (Json × Json)))
      ≠ [] :=
  ((configuration_extraction_spec (fun s => s)
      [("configuration", Json.obj [("paramtypeitems", Json.arr [Json.obj
        [("paramitems", Json.arr [Json.obj
          [("id", Json.s "93"), ("name", Json.s "n"),
           ("value", Json.s "v")]])]])])]).2
    [("93", (Json.s "n", Json.s "v"))] (by rfl)).1

theorem save_changes_commit_fail (now : Int) (src : String)
    (db : List RawRecord) (records : List ChangeRecord) :
    save_changes now src false db records = .error () := rfl

theorem save_changes_commit_ok (now : Int) (src : String)
    (db : List RawRecord) (records : List ChangeRecord) :
    ∃ ps db₂, save_changes now src true db records = .ok (ps, db₂) :=
  ⟨_, _, rfl⟩

/-- Unfolding of `DailyUpdater.update` for an actual walk: the watermark
check passes (`hsync`) and `get_change_id` returned a truthy cursor. -/
theorem update_unfold (now : Int) (source : String) (sync0 : SyncStateRow)
    (db0 : List RawRecord) (process_date : Int) (c : Int)
    (pages : Nat → Except Unit Page) (pageCommitOk : Nat → Bool)
    (fuel : Nat)
    (hsync : ∀ d l, sync0 = some (d, l) → d < process_date) (hc : c ≠ 0) :
    update now source sync0 db0 process_date (.ok (some c)) pages
        pageCommitOk fuel =
      (match updateLoop now source pages pageCommitOk fuel 1 c none
          UpdateStats.zero db0 with
       | none => none
       | some (st, db₂, last) =>
          if st.total_errors = 0 then
            some ({ st with dates_processed := 1 },
                  some (process_date, last), db₂)
          else some (st, sync0, db₂)) := by
  have ht : optIntTruthy (some c) = true := by simp [optIntTruthy, hc]
  have hafter : update.updateAfterSyncCheck now source sync0 db0 process_date
      (.ok (some c)) pages pageCommitOk fuel =
      (match updateLoop now source pages pageCommitOk fuel 1 c none
          UpdateStats.zero db0 with
       | none => none
       | some (st, db₂, last) =>
          if st.total_errors = 0 then
            some ({ st with dates_processed := 1 },
                  some (process_date, last), db₂)
          else some (st, sync0, db₂)) := by
    cases hloop : updateLoop now source pages pageCommitOk fuel 1 c none
        UpdateStats.zero db0 with
    | none => simp [update.updateAfterSyncCheck, ht, hloop]
    | some triple =>
        obtain ⟨st, db₂, last⟩ := triple
        simp [update.updateAfterSyncCheck, ht, hloop, update_sync_state]
  have hmain : update now source sync0 db0 process_date (.ok (some c)) pages
      pageCommitOk fuel =
      update.updateAfterSyncCheck now source sync0 db0 process_date
        (.ok (some c)) pages pageCommitOk fuel := by
    cases hs0 : sync0 with
    | none => simp [update]
    | some pair =>
        obtain ⟨d, l⟩ := pair
        have hd : d < process_date := hsync d l hs0
        simp only [update]
        rw [if_neg (by omega : ¬ d ≥ process_date)]
  exact hmain.trans hafter

/-- C2 counterexample: a unit walk that reaches `next_change_id = null`
with no page fetch error, in which the single page holds one record
missing its identity key (a record-level error).  The claim says the
Sync Watermark is advanced to the target date and last served cursor,
i.e. to `some (100, some 5)`; the code leaves the `sync_state` row
untouched (`none`), because `update` gates `_update_sync_state` on
`stats['total_errors'] == 0` and record-level errors count. -/
theorem update_record_error_blocks_watermark :
    update 0 "daily_update" none [] 100 (Except.ok (some 5))
      (fun n => if n = 1
        then Except.ok ⟨[⟨none, some "added", none, some []⟩], some 5, none⟩
        else Except.error ())
      (fun _ => true) 3 =
      some (⟨0, 0, 0, 0, 1, 0⟩, none, []) ∧
    (none : SyncStateRow) ≠ some ((100 : Int), some (5 : Int)) :=
  ⟨rfl, fun h => Option.noConfusion h⟩

/-- C2 amended: for a unit walk that actually runs (the watermark is
behind the target date and `get_change_id` returned a truthy cursor) and
ends within fuel, the Sync Watermark is advanced to the target date and
the last served cursor exactly when the run's total error count is zero
— page errors and record-level errors alike (a record-level error such
as a missing identity key also blocks the advance); with any error the
row is left as it was. -/
theorem update_watermark_amended (now : Int) (source : String)
    (sync0 : SyncStateRow) (db0 : List RawRecord) (process_date : Int)
    (c : Int) (pages : Nat → Except Unit Page) (pageCommitOk : Nat → Bool)
    (fuel : Nat) (stats : UpdateStats) (sync' : SyncStateRow)
    (db' : List RawRecord)
    (hsync : ∀ d l, sync0 = some (d, l) → d < process_date)
    (hc : c ≠ 0)
    (hres : update now source sync0 db0 process_date (.ok (some c)) pages
        pageCommitOk fuel = some (stats, sync', db')) :
    (stats.total_errors = 0 →
      ∃ l, sync' = some (process_date, l) ∧ stats.dates_processed = 1) ∧
    (stats.total_errors ≠ 0 → sync' = sync0) := by
  rw [update_unfold now source sync0 db0 process_date c pages pageCommitOk
    fuel hsync hc] at hres
  cases hloop : updateLoop now source pages pageCommitOk fuel 1 c none
      UpdateStats.zero db0 with
  | none => rw [hloop] at hres; cases hres
  | some triple =>
      obtain ⟨st, db₂, last⟩ := triple
      rw [hloop] at hres
      have hres2 : (if st.total_errors = 0 then
          some (({ st with dates_processed := 1 } : UpdateStats),
                (some (process_date, last) : SyncStateRow), db₂)
        else some (st, sync0, db₂)) = some (stats, sync', db') := hres
      by_cases herr : st.total_errors = 0
      · rw [if_pos herr] at hres2
        have h := Option.some.inj hres2
        simp only [Prod.mk.injEq] at h
        constructor
        · intro _
          exact ⟨last, h.2.1.symm, by rw [← h.1]⟩
        · intro hne
          exfalso
          apply hne
          rw [← h.1]
          exact herr
      · rw [if_neg herr] at hres2
        have h := Option.some.inj hres2
        simp only [Prod.mk.injEq] at h
        constructor
        · intro h0
          exact absurd (by rw [← h.1] at h0; exact h0) herr
        · intro _
          exact h.2.1.symm

/-- Witness for the amended C2: a clean one-page walk (no records, no
errors) advances the watermark to the target date. -/
theorem update_watermark_amended_witness :
    ∃ l, (some ((100 : Int), some (5 : Int)) : SyncStateRow) =
        some (100, l) ∧
      (⟨1, 0, 0, 0, 0, 0⟩ : UpdateStats).dates_processed = 1 :=
  (update_watermark_amended 0 "daily_update" none [] 100 5
      (fun n => if n = 1 then Except.ok ⟨[], none, none⟩
        else Except.error ())
      (fun _ => true) 3 ⟨1, 0, 0, 0, 0, 0⟩ (some (100, some 5)) []
      (fun _ _ h => Option.noConfusion h) (by norm_num) rfl).1 rfl

theorem updateLoop_abort_reach (now : Int) (source : String)
    (pages : Nat → Except Unit Page) (pageCommitOk : Nat → Bool) (k : Nat)
    (habort : pages k = .error () ∨ ∃ page, pages k = .ok page ∧
      page.result.isEmpty = false ∧ pageCommitOk k = false) :
    ∀ (fuel n : Nat) (cur : Int) (last : Option Int) (st : UpdateStats)
      (db : List RawRecord),
      (∀ j, n ≤ j → j < k → ∃ page, pages j = .ok page ∧
        (page.result.isEmpty = true ∨ pageCommitOk j = true) ∧
        ∃ nx, page.next_change_id = some nx) →
      n ≤ k → k < n + fuel →
      ∃ st' db' last',
        updateLoop now source pages pageCommitOk fuel n cur last st db =
          some (st', db', last') ∧
        st.total_errors < st'.total_errors := by
  intro fuel
  induction fuel with
  | zero => intro n cur last st db _ h1 h2; omega
  | succ f ih =>
      intro n cur last st db hsteps h1 h2
      by_cases hnk : n = k
      · subst hnk
        rcases habort with hf | ⟨page, hf, hres, hcommit⟩
        · exact ⟨{ st with total_errors := st.total_errors + 1 }, db, last,
            by simp [updateLoop, hf], Nat.lt_succ_self _⟩
        · have happlied : save_changes now source (pageCommitOk n) db
              page.result = .error () := by
            rw [hcommit]
            exact save_changes_commit_fail now source db page.result
          exact ⟨{ st with total_errors := st.total_errors + 1 }, db, last,
            by simp [updateLoop, hf, hres, happlied], Nat.lt_succ_self _⟩
      · have hlt : n < k := lt_of_le_of_ne h1 hnk
        obtain ⟨page, hf, hok, nx, hnx⟩ := hsteps n le_rfl hlt
        obtain ⟨ps, db₂, happ⟩ : ∃ ps db₂,
            (if page.result.isEmpty then Except.ok (SaveStats.zero, db)
             else save_changes now source (pageCommitOk n) db page.result) =
              .ok (ps, db₂) := by
          by_cases he : page.result.isEmpty
          · exact ⟨SaveStats.zero, db, by rw [if_pos he]⟩
          · rcases hok with hok' | hok'
            · exact absurd hok' he
            · obtain ⟨ps, db₂, hsc⟩ :=
                save_changes_commit_ok now source db page.result
              refine ⟨ps, db₂, ?_⟩
              rw [if_neg he, hok', hsc]
        have hstep : updateLoop now source pages pageCommitOk (f + 1) n cur
            last st db =
            updateLoop now source pages pageCommitOk f (n + 1) nx
              (if optIntTruthy page.cur_change_id then page.cur_change_id
               else some cur)
              { st with
                total_loaded := st.total_loaded + ps.loaded,
                total_updated := st.total_updated + ps.updated,
                total_removed := st.total_removed + ps.removed,
                total_errors := st.total_errors + ps.errors,
                total_duplicates := st.total_duplicates + ps.duplicates }
              db₂ := by
          simp [updateLoop, hf, happ, hnx]
        rw [hstep]
        obtain ⟨st', db', last', hres', hmono⟩ := ih (n + 1) nx _ _ db₂
          (fun j hj1 hj2 => hsteps j (by omega) hj2) (by omega) (by omega)
        refine ⟨st', db', last', hres', ?_⟩
        have hmono2 : st.total_errors + ps.errors < st'.total_errors := hmono
        omega

/-- C4: a unit walk in which some page fetch raises, or some page's
application fails at its commit, aborts the unit and leaves the
`sync_state` row exactly as it was — `last_successful_date` and
`last_change_id` are unchanged — so the next run retries the same date
from scratch.  Pages before the failing one fetched and applied
normally. -/
theorem update_page_error_leaves_watermark (now : Int) (source : String)
    (sync0 : SyncStateRow) (db0 : List RawRecord) (process_date : Int)
    (c : Int) (pages : Nat → Except Unit Page) (pageCommitOk : Nat → Bool)
    (fuel k : Nat)
    (hsync : ∀ d l, sync0 = some (d, l) → d < process_date)
    (hc : c ≠ 0)
    (hsteps : ∀ j, 1 ≤ j → j < k → ∃ page, pages j = .ok page ∧
      (page.result.isEmpty = true ∨ pageCommitOk j = true) ∧
      ∃ nx, page.next_change_id = some nx)
    (habort : pages k = .error () ∨ ∃ page, pages k = .ok page ∧
      page.result.isEmpty = false ∧ pageCommitOk k = false)
    (hk : 1 ≤ k) (hfuel : k < 1 + fuel) :
    ∃ stats db',
      update now source sync0 db0 process_date (.ok (some c)) pages
          pageCommitOk fuel = some (stats, sync0, db') ∧
      stats.total_errors ≠ 0 := by
  obtain ⟨st', db', last', hloop, hmono⟩ :=
    updateLoop_abort_reach now source pages pageCommitOk k habort fuel 1 c
      none UpdateStats.zero db0
      (fun j hj1 hj2 => hsteps j hj1 hj2) hk hfuel
  have herr : st'.total_errors ≠ 0 := by
    have : UpdateStats.zero.total_errors = 0 := rfl
    omega
  refine ⟨st', db', ?_, herr⟩
  rw [update_unfold now source sync0 db0 process_date c pages pageCommitOk
    fuel hsync hc, hloop]
  simp [herr]

/-- Witness for C4: the very first page fetch raises; the watermark row
(empty here) is left untouched and the run reports an error. -/
theorem update_page_error_leaves_watermark_witness :
    ∃ stats db',
      update 0 "daily_update" none [] 100 (Except.ok (some 5))
          (fun _ => Except.error ()) (fun _ => true) 1 =
        some (stats, none, db') ∧
      stats.total_errors ≠ 0 :=
  update_page_error_leaves_watermark 0 "daily_update" none [] 100 5
    (fun _ => Except.error ()) (fun _ => true) 1 1
    (fun _ _ h => Option.noConfusion h) (by norm_num)
    (fun j hj1 hj2 => absurd (lt_of_le_of_lt hj1 hj2) (lt_irrefl 1))
    (Or.inl rfl) le_rfl (by norm_num)

end CarSync
